import Mathlib

/-!
Verification development for the HAR-report pipeline of `app.py`
(repository RELATORIO_VENADAS_SF2).

The Python source extracts order / table-registration / deletion events
from HAR capture files, consolidates them (timestamp normalisation,
deduplication), and aggregates them (totals, commission, fee, per-table
ranking).  This file gives a shallow embedding of that pipeline:

* Python strings are Lean `String`s (operated on through `String.data`);
* Python `float` money values are modelled as exact rationals `ℚ`
  (the claims are about decimal money values; every concrete number
  appearing in them is exactly representable);
* fallible Python code (raising / try-except) is modelled with
  `Option` / `Except`;
* library calls (`urllib.parse.unquote_plus`, `float`, `re` searches,
  `datetime.fromisoformat`, pandas timestamp handling) are modelled by
  executable Lean functions whose doc comments state the scope of the
  model.
-/

set_option allowUnsafeReducibility true
attribute [local semireducible] Rat.add Rat.mul Rat.inv Rat.ofScientific Rat.div Rat.sub Rat.neg

namespace HarReport

/-! ## Character and string helpers -/

def isHexDigit (c : Char) : Bool :=
  c.isDigit || ('a' ≤ c && c ≤ 'f') || ('A' ≤ c && c ≤ 'F')

def hexVal (c : Char) : Nat :=
  if c.isDigit then c.toNat - 48
  else if 'a' ≤ c && c ≤ 'f' then c.toNat - 87
  else c.toNat - 55

/-- Model of Python `urllib.parse.unquote_plus` at the character level:
`+` becomes a space and a valid `%XY` hex escape becomes the character
with code `0xXY`; invalid escapes are passed through verbatim (Python
never raises here).  Multi-byte UTF-8 escape sequences are decoded
byte-by-byte (all inputs relevant to the claims are ASCII). -/
def unquotePlusL : List Char → List Char
  | [] => []
  | '+' :: r => ' ' :: unquotePlusL r
  | '%' :: a :: b :: r =>
    if isHexDigit a && isHexDigit b then
      Char.ofNat (16 * hexVal a + hexVal b) :: unquotePlusL r
    else '%' :: unquotePlusL (a :: b :: r)
  | c :: r => c :: unquotePlusL r

def unquotePlus (s : String) : String := ⟨unquotePlusL s.data⟩

/-- Model of Python `str.strip()` (whitespace at both ends removed).
Python strips a slightly larger set of Unicode space characters; the
ASCII whitespace handled here is what the claims exercise. -/
def trimS (s : String) : String :=
  ⟨((s.data.dropWhile Char.isWhitespace).reverse.dropWhile Char.isWhitespace).reverse⟩

/-- Leftmost occurrence split: `splitFirstL sep s = some (b, a)` when `s`
contains `sep`, with `b` the text before the first occurrence and `a`
the text after it. -/
def splitFirstL (sep : List Char) : List Char → Option (List Char × List Char)
  | [] => none
  | c :: cs =>
    if sep.isPrefixOf (c :: cs) then some ([], (c :: cs).drop sep.length)
    else
      match splitFirstL sep cs with
      | some (b, a) => some (c :: b, a)
      | none => none

/-- Fuel-driven worker for `splitOnStrL` (fuel keeps the recursion
structural so that the kernel can evaluate it; `s.length` is always
enough fuel because each removed separator is non-empty). -/
def splitOnFuel (sep : List Char) : Nat → List Char → List (List Char)
  | 0, s => [s]
  | n + 1, s =>
    match splitFirstL sep s with
    | none => [s]
    | some (b, a) => b :: splitOnFuel sep n a

/-- Model of Python `str.split(sep)` for a non-empty separator:
non-overlapping, left-to-right. -/
def splitOnStrL (sep : List Char) (s : List Char) : List (List Char) :=
  splitOnFuel sep (s.length + 1) s

/-- Model of the Python `in` substring test. -/
def containsSub (sub s : String) : Bool :=
  sub.data.isEmpty || (splitFirstL sub.data s.data).isSome

/-- Model of Python `str.replace(old, new)` for a non-empty `old`:
every non-overlapping occurrence, left to right. -/
def replaceS (s old new : String) : String :=
  ⟨List.intercalate new.data (splitOnStrL old.data s.data)⟩

def digitsVal (l : List Char) : Nat :=
  l.foldl (fun n c => 10 * n + (c.toNat - 48)) 0

/-- Model of Python `float()` restricted to plain signed decimal literals
(optional surrounding whitespace, optional sign, digits with at most one
point, at least one digit).  Exponent forms, underscore separators and
the non-finite literals `inf` / `nan`, which the pipeline's price
normalisation never produces, are outside the model and rejected. -/
def pyFloat (s : String) : Option ℚ :=
  let t := trimS s
  let su : ℚ × List Char :=
    match t.data with
    | '+' :: r => (1, r)
    | '-' :: r => (-1, r)
    | r => (1, r)
  match splitFirstL ['.'] su.2 with
  | none =>
    if !su.2.isEmpty && su.2.all Char.isDigit then some (su.1 * (digitsVal su.2 : ℚ))
    else none
  | some (ip, fp) =>
    if (!ip.isEmpty || !fp.isEmpty) && ip.all Char.isDigit && fp.all Char.isDigit then
      some (su.1 * ((digitsVal ip : ℚ) + (digitsVal fp : ℚ) / (10 : ℚ) ^ fp.length))
    else none

/-! ## parse_nomeprod (app.py lines 30-43) -/

/-- The price-text normalisation applied by `parse_nomeprod`:
`.replace(".", "").replace(",", ".").replace(" ", "")`. -/
def normVal (s : String) : String :=
  replaceS (replaceS (replaceS s "." "") "," ".") " " ""

/-- Shared final step of the marker branch (app.py lines 36-37 with the
`except` of lines 42-43): parse the normalised price text as a float,
pairing it with the trimmed name; a failed parse raises inside the
`try`, so the whole call falls back to the raw (still encoded) input
with price 0. -/
def priceResult (produtoStr nome valorTxt : String) : String × ℚ :=
  match pyFloat valorTxt with
  | some v => (nome, v)
  | none => (produtoStr, 0)

/-- Embedding of `parse_nomeprod` (app.py lines 30-43): percent-decode;
if the decoded string contains `R$`, take `partes = dec.split("R$")`,
the trimmed `partes[0]` as the name and the normalised `partes[1]`
parsed as a float as the unit price (raw-input fallback on failure);
without `R$` the trimmed decoded string with price 0. -/
def parse_nomeprod (produtoStr : String) : String × ℚ :=
  let produtoDec := unquotePlus produtoStr
  if containsSub "R$" produtoDec then
    let partes := splitOnStrL "R$".data produtoDec.data
    priceResult produtoStr (trimS ⟨partes.getD 0 []⟩) (normVal ⟨partes.getD 1 []⟩)
  else (trimS produtoDec, 0)

/-- Claim C1's literal reading of the marker split: the price text is
ALL the text after the FIRST occurrence of `R$` (with the same
normalisation, float parse and raw-input fallback). -/
def parseNomeprodFirstSplit (produtoStr : String) : String × ℚ :=
  let produtoDec := unquotePlus produtoStr
  match splitFirstL "R$".data produtoDec.data with
  | none => (trimS produtoDec, 0)
  | some (b, a) => priceResult produtoStr (trimS ⟨b⟩) (normVal ⟨a⟩)

/-- The segment of `a` up to the next occurrence of `R$` (all of `a`
when there is none): what `split("R$")[1]` actually denotes on the text
after the first marker. -/
def segAfter (a : List Char) : List Char :=
  match splitFirstL "R$".data a with
  | none => a
  | some (s1, _) => s1

/-- Amended reading matching the code: the price text is the segment
between the first and the second occurrence of `R$` (all the text after
the first occurrence when it is unique). -/
def parseNomeprodAmendedSpec (produtoStr : String) : String × ℚ :=
  let produtoDec := unquotePlus produtoStr
  match splitFirstL "R$".data produtoDec.data with
  | none => (trimS produtoDec, 0)
  | some (b, a) => priceResult produtoStr (trimS ⟨b⟩) (normVal ⟨segAfter a⟩)

/-! ## Calendar arithmetic

Conversion between civil dates and days since the Unix epoch
(Howard Hinnant's algorithms, with explicit truncating `Int.div`
matching the reference formulation; all guarded intermediates are
non-negative). -/

def daysFromCivil (y m d : Int) : Int :=
  let y2 := if m ≤ 2 then y - 1 else y
  let era := Int.tdiv (if 0 ≤ y2 then y2 else y2 - 399) 400
  let yoe := y2 - era * 400
  let mp := if 2 < m then m - 3 else m + 9
  let doy := Int.tdiv (153 * mp + 2) 5 + d - 1
  let doe := yoe * 365 + Int.tdiv yoe 4 - Int.tdiv yoe 100 + doy
  era * 146097 + doe - 719468

def civilFromDays (z0 : Int) : Int × Int × Int :=
  let z := z0 + 719468
  let era := Int.tdiv (if 0 ≤ z then z else z - 146096) 146097
  let doe := z - era * 146097
  let yoe := Int.tdiv (doe - Int.tdiv doe 1460 + Int.tdiv doe 36524 - Int.tdiv doe 146096) 365
  let y := yoe + era * 400
  let doy := doe - (365 * yoe + Int.tdiv yoe 4 - Int.tdiv yoe 100)
  let mp := Int.tdiv (5 * doy + 2) 153
  let d := doy - Int.tdiv (153 * mp + 2) 5 + 1
  let m := if mp < 10 then mp + 3 else mp - 9
  (if m ≤ 2 then y + 1 else y, m, d)

def isLeap (y : Int) : Bool :=
  (Int.emod y 4 == 0 && Int.emod y 100 != 0) || Int.emod y 400 == 0

def monthLen (y m : Int) : Int :=
  if m = 2 then (if isLeap y then 29 else 28)
  else if m = 4 ∨ m = 6 ∨ m = 9 ∨ m = 11 then 30 else 31

/-- Milliseconds since the Unix epoch of a civil UTC instant. -/
def civilToMs (y mo d hh mi ss ms : Int) : Int :=
  (daysFromCivil y mo d * 86400 + hh * 3600 + mi * 60 + ss) * 1000 + ms

/-! ## ISO-8601 timestamp parsing

Model of `datetime.fromisoformat` as used by the extractor (after the
`.replace("Z", "+00:00")` of app.py line 69): `YYYY-MM-DD`, optionally
followed by a one-character separator and `HH:MM[:SS[.fff|.ffffff]]`,
optionally followed by a `±HH:MM` offset.  A fromisoformat result
without an offset is a naive datetime, which `pd.to_datetime(utc=True)`
later localises as UTC, so naive parses are mapped to UTC here
directly.  Offset forms with seconds, which no HAR capture produces,
are outside the model. -/

def digit2 : List Char → Option (Nat × List Char)
  | a :: b :: r =>
    if a.isDigit && b.isDigit then some (10 * (a.toNat - 48) + (b.toNat - 48), r) else none
  | _ => none

def digit4 : List Char → Option (Nat × List Char)
  | a :: b :: c :: d :: r =>
    if a.isDigit && b.isDigit && c.isDigit && d.isDigit then
      some (1000 * (a.toNat - 48) + 100 * (b.toNat - 48) + 10 * (c.toNat - 48) + (d.toNat - 48), r)
    else none
  | _ => none

/-- Fractional seconds: exactly 3 or 6 digits after the point (the
fromisoformat rule); microseconds are truncated to milliseconds. -/
def parseFrac : List Char → Option (Int × List Char)
  | '.' :: r =>
    let ds := r.takeWhile Char.isDigit
    if ds.length = 3 then some ((digitsVal ds : Int), r.drop 3)
    else if ds.length = 6 then some (Int.tdiv (digitsVal ds : Int) 1000, r.drop 6)
    else none
  | r => some (0, r)

/-- UTC offset in minutes; `none` marks a malformed trailing part.
An empty rest means a naive datetime (offset 0 after the utc=True
localisation). -/
def parseOffsetMin : List Char → Option Int
  | [] => some 0
  | c :: r =>
    if c = '+' ∨ c = '-' then
      match digit2 r with
      | some (hh, ':' :: r2) =>
        match digit2 r2 with
        | some (mm, []) =>
          if hh ≤ 23 ∧ mm ≤ 59 then
            some ((if c = '+' then 1 else -1) * ((hh : Int) * 60 + mm))
          else none
        | _ => none
      | _ => none
    else none

def parseTimeOfDay (l : List Char) : Option (Nat × Nat × Nat × Int × List Char)  :=
  match digit2 l with
  | some (hh, ':' :: r) =>
    match digit2 r with
    | some (mi, r2) =>
      match r2 with
      | ':' :: r3 =>
        match digit2 r3 with
        | some (ss, r4) =>
          match parseFrac r4 with
          | some (ms, r5) => some (hh, mi, ss, ms, r5)
          | none => none
        | none => none
      | _ => some (hh, mi, 0, 0, r2)
    | none => none
  | _ => none

def isoParse (s : String) : Option Int :=
  match digit4 s.data with
  | some (y, '-' :: r1) =>
    match digit2 r1 with
    | some (mo, '-' :: r2) =>
      match digit2 r2 with
      | some (d, r3) =>
        if 1 ≤ mo ∧ mo ≤ 12 ∧ 1 ≤ (d : Int) ∧ (d : Int) ≤ monthLen y mo then
          match r3 with
          | [] => some (civilToMs y mo d 0 0 0 0)
          | _ :: r4 =>
            match parseTimeOfDay r4 with
            | some (hh, mi, ss, ms, rest) =>
              if hh ≤ 23 ∧ mi ≤ 59 ∧ ss ≤ 59 then
                match parseOffsetMin rest with
                | some offMin => some (civilToMs y mo d hh mi ss ms - offMin * 60000)
                | none => none
              else none
            | none => none
        else none
      | _ => none
    | _ => none
  | _ => none

/-- `datetime.fromisoformat(s.replace("Z", "+00:00"))` (app.py line 69). -/
def pyFromIso (s : String) : Option Int := isoParse (replaceS s "Z" "+00:00")

/-! ## America/Sao_Paulo civil timezone

`process_all_files` converts instants with
`tz_convert('America/Sao_Paulo')`.  The IANA zone is UTC-3 standard
time, with UTC-2 during the (southern-summer) daylight-saving windows
that existed until February 2019; daylight saving was abolished in
April 2019, so from 2019 on the zone is permanently UTC-3.  The model
enumerates only the 2017-2018 window (2017-10-15T03:00Z up to
2018-02-18T02:00Z), the one exercised by the theorems below; every
instant outside it gets the standard offset. -/

def dst1718Start : Int := civilToMs 2017 10 15 3 0 0 0
def dst1718End : Int := civilToMs 2018 2 18 2 0 0 0

/-- First instant from which the zone is guaranteed permanently UTC-3
in both the model and the IANA data (daylight saving was abolished
before the November 2019 window would have started). -/
def spFixedFrom : Int := civilToMs 2019 11 3 0 0 0 0

def spOffsetHours (t : Int) : Int :=
  if dst1718Start ≤ t ∧ t < dst1718End then -2 else -3

/-- Local (America/Sao_Paulo) clock reading of a UTC instant, in
milliseconds: the value underlying `tz_convert` + `tz_localize(None)`. -/
def localMs (t : Int) : Int := t + spOffsetHours t * 3600000

/-- `floor("s")`: truncate the (naive local) instant to whole seconds. -/
def floorSec (lm : Int) : Int := lm - Int.emod lm 1000

/-! ## strftime-style formatting -/

def pad2 (n : Int) : String := if n < 10 then "0" ++ toString n else toString n

def pad4 (n : Int) : String :=
  if n < 10 then "000" ++ toString n
  else if n < 100 then "00" ++ toString n
  else if n < 1000 then "0" ++ toString n
  else toString n

/-- `strftime('%Y-%m-%d')` of a naive local instant in milliseconds. -/
def dataStr (lm : Int) : String :=
  let c := civilFromDays (Int.fdiv lm 86400000)
  pad4 c.1 ++ "-" ++ pad2 c.2.1 ++ "-" ++ pad2 c.2.2

/-- `strftime('%H:%M:%S')` of a naive local instant in milliseconds. -/
def horaStr (lm : Int) : String :=
  let secs := Int.tdiv (Int.emod lm 86400000) 1000
  pad2 (Int.tdiv secs 3600) ++ ":" ++ pad2 (Int.emod (Int.tdiv secs 60) 60) ++ ":" ++
    pad2 (Int.emod secs 60)

/-! ## Regex models

Executable models of the three `re` patterns of app.py (lines 20-26),
with Python `re.search` semantics: leftmost start position first, lazy
`.+?` tried shortest-first, greedy `.*` and `[^&]+` tried longest-first
with backtracking, `.` not matching a newline, `IGNORECASE` where the
source sets it. -/

/-- Case-insensitive literal prefix test (the pattern is given in
lowercase). -/
def startsCI : List Char → List Char → Bool
  | [], _ => true
  | _ :: _, [] => false
  | p :: ps, c :: cs => (c.toLower == p) && startsCI ps cs

/-- Length of the longest newline-free initial segment: `.*` may only
reach start positions inside it. -/
def noNlLen (r : List Char) : Nat := (r.takeWhile (fun c => c ≠ '\n')).length

/-- Tail of the order pattern: `.*quant=(\d+)` — greedy `.*`, so the
latest `quant=` followed by at least one digit wins; the digit group is
the maximal digit run there. -/
def matchQuant (r : List Char) : Option (List Char) :=
  (List.range (noNlLen r + 1)).reverse.findSome? (fun p =>
    let t := r.drop p
    if startsCI "quant=".data t then
      let ds := (t.drop 6).takeWhile Char.isDigit
      if ds.isEmpty then none else some ds
    else none)

/-- Middle of the order pattern: `.*mesa=([^&]+).*quant=(\d+)` — greedy
`.*` (latest `mesa=` first) and greedy `[^&]+` backtracking from the
longest non-`&` run down to one character. -/
def matchMesaQuant (r : List Char) : Option (List Char × List Char) :=
  (List.range (noNlLen r + 1)).reverse.findSome? (fun p =>
    let t := r.drop p
    if startsCI "mesa=".data t then
      let body := t.drop 5
      let grp := body.takeWhile (fun c => c ≠ '&')
      (List.range grp.length).reverse.findSome? (fun j =>
        (matchQuant (body.drop (j + 1))).map (fun q => (body.take (j + 1), q)))
    else none)

/-- After `nomeprod=`: the lazy group `(?P<produto>.+?)` (shortest
first, no newline) followed by a literal `&` and the rest of the
pattern. -/
def matchProdutoAt (r : List Char) : Option (List Char × List Char × List Char) :=
  (List.range r.length).findSome? (fun i =>
    let produto := r.take (i + 1)
    if produto.length == i + 1 && produto.all (fun c => c ≠ '\n') then
      match r.drop (i + 1) with
      | '&' :: after => (matchMesaQuant after).map (fun mq => (produto, mq.1, mq.2))
      | _ => none
    else none)

/-- `regex_url.search(url)` for
`nomeprod=(?P<produto>.+?)&.*mesa=(?P<mesa>[^&]+).*quant=(?P<quant>\d+)`
(IGNORECASE): returns the captured (produto, mesa, quant-digits). -/
def matchOrderUrl (url : String) : Option (String × String × List Char) :=
  (List.range url.data.length).findSome? (fun p =>
    let t := url.data.drop p
    if startsCI "nomeprod=".data t then
      (matchProdutoAt (t.drop 9)).map (fun r => ((⟨r.1⟩ : String), (⟨r.2.1⟩ : String), r.2.2))
    else none)

/-- `regex_cadastro_mesa.search(url)` for
`/connect\.php\?mesa=(?P<mesa>[^&]+)&id=` (IGNORECASE).  The greedy
`[^&]+` group necessarily ends at the first `&` (or the end), so only
the maximal run can be followed by the literal `&id=`. -/
def matchCadastro (url : String) : Option String :=
  (List.range url.data.length).findSome? (fun p =>
    let t := url.data.drop p
    if startsCI "/connect.php?mesa=".data t then
      let body := t.drop 18
      let grp := body.takeWhile (fun c => c ≠ '&')
      if grp.isEmpty then none
      else if startsCI "&id=".data (body.drop grp.length) then some (⟨grp⟩ : String)
      else none
    else none)

/-- `regex_deletado.search(post_data)` for `delete=(?P<delete_id>\d+)`
(IGNORECASE). -/
def matchDeleteId (body : String) : Option String :=
  (List.range body.data.length).findSome? (fun p =>
    let t := body.data.drop p
    if startsCI "delete=".data t then
      let ds := (t.drop 7).takeWhile Char.isDigit
      if ds.isEmpty then none else some (⟨ds⟩ : String)
    else none)

/-- `re.search(r"mesa=([^&]+)", referer)` (case-sensitive, app.py
line 115). -/
def matchMesaParam (s : String) : Option String :=
  (List.range s.data.length).findSome? (fun p =>
    let t := s.data.drop p
    if "mesa=".data.isPrefixOf t then
      let grp := (t.drop 5).takeWhile (fun c => c ≠ '&')
      if grp.isEmpty then none else some (⟨grp⟩ : String)
    else none)

/-! ## Event extraction (process_har_file, app.py lines 45-125) -/

/-- The `horario` value of an entry: a parsed datetime, or the raw
string fallback kept when `fromisoformat` fails (`""` when the record
has no start time). -/
inductive TempoVal where
  | dt (ms : Int)
  | raw (s : String)
deriving DecidableEq

/-- One HAR transaction record, with the fields the code reads (missing
optional fields already defaulted to `""` / `[]` as the `.get` calls
do). -/
structure HarEntry where
  url : String
  method : String
  status : Int
  startedDateTime : String
  headers : List (String × String)
  postData : String
  responseBody : String
deriving DecidableEq

/-- An order event (dict appended at app.py lines 89-94). -/
structure Lancamento where
  request : String
  response : Int
  produto : String
  qtde : Nat
  horarioVal : TempoVal
  valorUnit : ℚ
  valorTotal : ℚ
  mesa : String
  arquivoOrigem : String
  lancamentoId : Option String
deriving DecidableEq

/-- A table-registration event (app.py lines 102-105). -/
structure MesaCad where
  mesa : String
  horarioCad : TempoVal
  request : String
  response : Int
  arquivoOrigem : String
deriving DecidableEq

/-- A deletion event (app.py lines 119-122). -/
structure ItemDeletado where
  deleteId : String
  mesaDelRef : String
  horarioDel : TempoVal
  status : Int
  request : String
  arquivoOrigem : String
deriving DecidableEq

inductive EventKind where
  | lanc (l : Lancamento)
  | cad (c : MesaCad)
  | del (d : ItemDeletado)
deriving DecidableEq

/-- app.py lines 66-71. -/
def parseEntryTempo (s : String) : TempoVal :=
  if s = "" then TempoVal.raw ""
  else
    match pyFromIso s with
    | some t => TempoVal.dt t
    | none => TempoVal.raw s

/-- Confirmation id: the response body, stripped, when it consists only
of digits (app.py lines 83-87; `isdigit` is false on the empty
string). -/
def lancIdOf (body : String) : Option String :=
  let rc := trimS body
  if !rc.data.isEmpty && rc.data.all Char.isDigit then some rc else none

def lowerStr (s : String) : String := ⟨s.data.map Char.toLower⟩

/-- Deletion branch (app.py lines 108-122): URL contains the literal
`/inc/del_produtos.php` (case-sensitive `in`) and the method is POST
(`method.upper() == "POST"`, modelled as a lowercase comparison —
identical on ASCII); the table id comes from the last `referer` header
(the lowercased-key dict keeps the last duplicate) when it contains
`mesa=`. -/
def tryDelete (fileName : String) (e : HarEntry) (tempo : TempoVal) : Option EventKind :=
  if containsSub "/inc/del_produtos.php" e.url && (lowerStr e.method == "post") then
    match matchDeleteId e.postData with
    | some delId =>
      let refererVal := ((e.headers.reverse).find? (fun h => lowerStr h.1 == "referer")).map Prod.snd
      let mesa :=
        match refererVal with
        | some rv =>
          if containsSub "mesa=" rv then
            match matchMesaParam rv with
            | some g => unquotePlus g
            | none => ""
          else ""
        | none => ""
      some (EventKind.del
        { deleteId := delId, mesaDelRef := mesa, horarioDel := tempo,
          status := e.status, request := e.url, arquivoOrigem := fileName })
    | none => none
  else none

/-- Classification of one record (app.py lines 73-122): order first;
otherwise registration (requires status 200, else it falls through);
otherwise deletion; otherwise nothing. -/
def processEntry (fileName : String) (e : HarEntry) : Option EventKind :=
  let tempo := parseEntryTempo e.startedDateTime
  match matchOrderUrl e.url with
  | some (produtoRaw, mesa, quantDs) =>
    let quant := digitsVal quantDs
    let pv := parse_nomeprod produtoRaw
    some (EventKind.lanc
      { request := e.url, response := e.status, produto := pv.1, qtde := quant,
        horarioVal := tempo, valorUnit := pv.2, valorTotal := (quant : ℚ) * pv.2,
        mesa := mesa, arquivoOrigem := fileName, lancamentoId := lancIdOf e.responseBody })
  | none =>
    match matchCadastro e.url with
    | some mesaRaw =>
      if e.status = 200 then
        some (EventKind.cad
          { mesa := trimS (unquotePlus mesaRaw), horarioCad := tempo,
            request := e.url, response := e.status, arquivoOrigem := fileName })
      else tryDelete fileName e tempo
    | none => tryDelete fileName e tempo

/-- The per-record loop of `process_har_file`: each record contributes
to exactly one of the three lists, in record order (record-local
failures are skipped; in this embedding a skipped record is a `none`
classification). -/
def processHarEntries (fileName : String) :
    List HarEntry → List Lancamento × List MesaCad × List ItemDeletado
  | [] => ([], [], [])
  | e :: rest =>
    let t := processHarEntries fileName rest
    match processEntry fileName e with
    | some (EventKind.lanc l) => (l :: t.1, t.2.1, t.2.2)
    | some (EventKind.cad c) => (t.1, c :: t.2.1, t.2.2)
    | some (EventKind.del d) => (t.1, t.2.1, d :: t.2.2)
    | none => t

/-! ## Whole-document parsing (process_har_file, app.py lines 45-56)

`json.loads` and the `har_data["log"]["entries"]` access are library /
dynamic-shape operations; their three possible outcomes are embedded as
an inductive.  A document that is not well-formed JSON is caught by the
`try` around `json.loads` and yields three empty lists; a document that
parses but lacks the `log.entries` shape raises (`KeyError` /
`TypeError`) OUTSIDE any local `try`, so `process_har_file` itself
propagates the exception — modelled as `Except.error`. -/

inductive HarDoc where
  | badJson
  | badShape
  | entries (es : List HarEntry)
deriving DecidableEq

def processHarFile (doc : HarDoc) (fileName : String) :
    Except Unit (List Lancamento × List MesaCad × List ItemDeletado) :=
  match doc with
  | HarDoc.badJson => Except.ok ([], [], [])
  | HarDoc.badShape => Except.error ()
  | HarDoc.entries es => Except.ok (processHarEntries fileName es)

/-! ## Batch loop (process_all_files, app.py lines 133-161) -/

/-- One uploaded file: its name and the parse outcome of its content
(`none` models a `UnicodeDecodeError` while reading).  The
`secure_filename` sanitisation only affects the cosmetic
`arquivo_origem` tag and is modelled as the identity. -/
structure UploadFile where
  filename : String
  content : Option HarDoc
deriving DecidableEq

/-- Python `name.endswith(".har")`. -/
def endsWithHar (name : String) : Bool :=
  ".har".data.reverse.isPrefixOf name.data.reverse

/-- Contribution of one uploaded file to the batch: files whose name
does not end in `.har` are ignored; decode errors and exceptions raised
by `process_har_file` are caught (`except Exception`) and the file is
skipped. -/
def fileEvents (f : UploadFile) : List Lancamento × List MesaCad × List ItemDeletado :=
  if endsWithHar f.filename then
    match f.content with
    | none => ([], [], [])
    | some doc =>
      match processHarFile doc f.filename with
      | Except.ok t => t
      | Except.error _ => ([], [], [])
  else ([], [], [])

/-- The upload loop: event lists are concatenated in file order. -/
def processAllRaw : List UploadFile → List Lancamento × List MesaCad × List ItemDeletado
  | [] => ([], [], [])
  | f :: rest =>
    ((fileEvents f).1 ++ (processAllRaw rest).1,
     (fileEvents f).2.1 ++ (processAllRaw rest).2.1,
     (fileEvents f).2.2 ++ (processAllRaw rest).2.2)

/-! ## Order normalisation and deduplication (app.py lines 176-186) -/

/-- `pd.to_datetime(horario, errors="coerce", utc=True)` per element:
an already-parsed datetime passes through (aware values are already
UTC here, naive ones are localised as UTC); a string fallback is
re-parsed, `NaT` (`none`) on failure.  The pandas parser accepts more
formats than the ISO core modelled by `pyFromIso`; since the raw
fallback only ever holds strings `fromisoformat` already rejected (or
`""`), the model maps them through the same ISO parser. -/
def pdToDatetime : TempoVal → Option Int
  | TempoVal.dt t => some t
  | TempoVal.raw s => pyFromIso s

/-- An order row after timestamp normalisation: the `Data` / `Hora`
display strings (`none` models the `NaN` that `strftime` yields on
`NaT`) and the naive second-truncated `horario_norm` dedup key
component. -/
structure LancNorm where
  lanc : Lancamento
  dataS : Option String
  horaS : Option String
  horarioNorm : Option Int
deriving DecidableEq

/-- app.py lines 177-181: convert to America/Sao_Paulo, format
`%Y-%m-%d` and `%H:%M:%S`, and truncate the naive local instant to
seconds. -/
def normalizeLanc (l : Lancamento) : LancNorm :=
  match pdToDatetime l.horarioVal with
  | none => ⟨l, none, none, none⟩
  | some t =>
    let lm := localMs t
    ⟨l, some (dataStr lm), some (horaStr lm), some (floorSec lm)⟩

/-- Claim C5's reading of the normalisation: a fixed UTC-3 civil
timezone, never daylight-saving. -/
def normalizeLancFixed3 (l : Lancamento) : LancNorm :=
  match pdToDatetime l.horarioVal with
  | none => ⟨l, none, none, none⟩
  | some t =>
    let lm := t - 3 * 3600000
    ⟨l, some (dataStr lm), some (horaStr lm), some (floorSec lm)⟩

/-- The `drop_duplicates` subset of app.py line 182. -/
def lancKey (n : LancNorm) : String × String × Nat × String × Option Int :=
  (n.lanc.mesa, n.lanc.produto, n.lanc.qtde, n.lanc.request, n.horarioNorm)

/-- `drop_duplicates(subset=...)` with the default `keep="first"`:
keep an element iff its key has not been seen before (stable). -/
def dedupByKey {α κ : Type} [DecidableEq κ] (key : α → κ) :
    List κ → List α → List α
  | _, [] => []
  | seen, a :: rest =>
    if key a ∈ seen then dedupByKey key seen rest
    else a :: dedupByKey key (key a :: seen) rest

/-- A final consolidated order row (columns of `COLUNAS_LANCAMENTO`,
app.py lines 170-173; `horario_norm` and `horario_br` are dropped and
serve only inside the consolidation). -/
structure LancRow where
  numero : Nat
  response : Int
  produto : String
  qtde : Nat
  dataS : Option String
  horaS : Option String
  deletar : String
  valorUnit : ℚ
  valorTotal : ℚ
  mesa : String
  arquivoOrigem : String
  request : String
deriving DecidableEq

/-- One final row from a (0-based index, normalised event) pair:
`Nº = index + 1`, `deletar` initialised empty, and `valor total`
recomputed as `Qtde * valor unitario` (app.py lines 183-186). -/
def lancRowOf (p : Nat × LancNorm) : LancRow :=
  { numero := p.1 + 1, response := p.2.lanc.response, produto := p.2.lanc.produto,
    qtde := p.2.lanc.qtde, dataS := p.2.dataS, horaS := p.2.horaS, deletar := "",
    valorUnit := p.2.lanc.valorUnit,
    valorTotal := (p.2.lanc.qtde : ℚ) * p.2.lanc.valorUnit,
    mesa := p.2.lanc.mesa, arquivoOrigem := p.2.lanc.arquivoOrigem,
    request := p.2.lanc.request }

/-- app.py lines 176-189: normalise, dedup, then build the final rows. -/
def consolidateLancs (ls : List Lancamento) : List LancRow :=
  ((dedupByKey lancKey [] (ls.map normalizeLanc)).enum).map lancRowOf

/-! ## Registration and deletion consolidation (app.py lines 197-215) -/

structure CadRow where
  mesa : String
  request : String
  response : Int
  arquivoOrigem : String
deriving DecidableEq

/-- Insertion step of a stable insertion sort. -/
def insertBy {α : Type} (le : α → α → Bool) (a : α) : List α → List α
  | [] => [a]
  | b :: bs => if le a b then a :: b :: bs else b :: insertBy le a bs

/-- Stable insertion sort (ties keep their original relative order when
`le` holds both ways).  pandas `sort_values` uses an unstable quicksort
by default; no theorem below depends on the order of ties. -/
def sortBy {α : Type} (le : α → α → Bool) : List α → List α
  | [] => []
  | a :: l => insertBy le a (sortBy le l)

/-- `sort_values` key order with `NaT` sorted last (pandas
`na_position='last'`). -/
def optLeNaLast (a b : Option Int) : Bool :=
  match a, b with
  | some x, some y => decide (x ≤ y)
  | some _, none => true
  | none, some _ => false
  | none, none => true

/-- app.py lines 197-201: normalise the registration instant to a naive
America/Sao_Paulo value, sort ascending by it, keep the first (earliest)
row per table id, and drop the instant column. -/
def consolidateCads (cs : List MesaCad) : List CadRow :=
  let normed := cs.map (fun c => (c, (pdToDatetime c.horarioCad).map localMs))
  let sorted := sortBy (fun a b => optLeNaLast a.2 b.2) normed
  (dedupByKey (fun x => x.1.mesa) [] sorted).map (fun x =>
    { mesa := x.1.mesa, request := x.1.request, response := x.1.response,
      arquivoOrigem := x.1.arquivoOrigem })

/-- A deletion row as displayed (`df_del_final` drops the `horario`
column, app.py line 210). -/
structure DelRow where
  deleteId : String
  mesaDelRef : String
  status : Int
  request : String
  arquivoOrigem : String
deriving DecidableEq

def delRowOf (d : ItemDeletado) : DelRow :=
  { deleteId := d.deleteId, mesaDelRef := d.mesaDelRef, status := d.status,
    request := d.request, arquivoOrigem := d.arquivoOrigem }

/-! ## Aggregation (app.py lines 218-242) -/

/-- The flat-percentage commission of src/app.py line 220
(`comissao = total_valor * 0.06`). -/
def comissaoFlat (total : ℚ) : ℚ := total * (0.06 : ℚ)

/-- Modelled from the spec: the "percentage + fixed offset" commission
variant, which the spec reports from the repository's revision history;
src/app.py carries only the flat variant, so the offset variant is not
in the sources and is reconstructed from the spec's words (a percentage
of the total value plus a fixed fee offset). -/
def comissaoComOffset (rate offset total : ℚ) : ℚ := total * rate + offset

/-- The fee of src/app.py line 221 (`taxa = total_valor * 0.04`): a
percentage of the total value, no offset. -/
def taxaPct (total : ℚ) : ℚ := total * (0.04 : ℚ)

structure RankRow where
  posicao : Nat
  mesa : String
  valorTotal : ℚ
deriving DecidableEq

/-- Lexicographic code-point comparison — the Python string `<` that
pandas uses to sort `groupby` keys. -/
def strLtBL : List Char → List Char → Bool
  | [], [] => false
  | [], _ :: _ => true
  | _ :: _, [] => false
  | a :: as, b :: bs =>
    if a.toNat < b.toNat then true
    else if b.toNat < a.toNat then false
    else strLtBL as bs

def strLeB (a b : String) : Bool := !strLtBL b.data a.data

def sumMesa (m : String) (rows : List (String × ℚ)) : ℚ :=
  (rows.filter (fun r => r.1 == m)).foldl (fun acc r => acc + r.2) 0

/-- app.py lines 237-240:
`groupby("mesa")` sorts the group keys (string ascending);
`.sum().reset_index()` attaches the positional index 0..K-1 in that
key-sorted order; `.sort_values(by="valor total", ascending=False)`
reorders the rows but keeps the index labels; `Posição = index + 1`
therefore numbers each row by its position in the KEY-SORTED order, not
in the total-sorted order. -/
def rankingRows (rows : List (String × ℚ)) : List RankRow :=
  let mesas := dedupByKey id [] (rows.map Prod.fst)
  let sortedMesas := sortBy strLeB mesas
  let grouped := sortedMesas.enum.map (fun p => (p.1, p.2, sumMesa p.2 rows))
  let sorted := sortBy (fun x y => decide (y.2.2 ≤ x.2.2)) grouped
  sorted.map (fun t => { posicao := t.1 + 1, mesa := t.2.1, valorTotal := t.2.2 })

def totalOf (rows : List LancRow) : ℚ := rows.foldl (fun a r => a + r.valorTotal) 0

/-- The consolidated dataset handed to the report emitter. -/
structure Consolidated where
  lancamentos : List LancRow
  mesasCad : List CadRow
  itensDel : List DelRow
  totalDeletado : ℚ
  totalValor : ℚ
  comissao : ℚ
  taxa : ℚ
  ranking : List RankRow
deriving DecidableEq

/-- `process_all_files` (app.py lines 133-257): extract every file,
short-circuit to the "no data" outcome (`return None`, modelled as
`none`) exactly when all three event lists are empty, otherwise build
the consolidated tables.  Extracted deletions carry no `valor total`
column, so `total_deletado` is the constant 0 branch of line 209. -/
def processAllFiles (files : List UploadFile) : Option Consolidated :=
  let t := processAllRaw files
  if t.1 = [] ∧ t.2.1 = [] ∧ t.2.2 = [] then none
  else
    let rows := consolidateLancs t.1
    let total := totalOf rows
    some
      { lancamentos := rows,
        mesasCad := consolidateCads t.2.1,
        itensDel := t.2.2.map delRowOf,
        totalDeletado := 0,
        totalValor := total,
        comissao := total * (0.06 : ℚ),
        taxa := total * (0.04 : ℚ),
        ranking := rankingRows (rows.map (fun r => (r.mesa, r.valorTotal))) }

end HarReport

namespace HarReport

/-! ## Concrete scenario inputs -/

/-- The order URL of the spec's Hamburguer scenario. -/
def urlHamburguer : String :=
  "http://pos.example/inc/add.php?nomeprod=Hamburguer%20R%24%2025%2C00&mesa=Mesa01&quant=2"

def entryHamburguer : HarEntry :=
  { url := urlHamburguer, method := "GET", status := 200,
    startedDateTime := "2023-05-05T12:00:00Z", headers := [], postData := "",
    responseBody := "8123" }

/-- The OrderEvent the Hamburguer entry must yield. -/
def lancHamburguer : Lancamento :=
  { request := urlHamburguer, response := 200, produto := "Hamburguer", qtde := 2,
    horarioVal := TempoVal.dt (civilToMs 2023 5 5 12 0 0 0), valorUnit := 25,
    valorTotal := 50, mesa := "Mesa01", arquivoOrigem := "cap.har",
    lancamentoId := some "8123" }

/-- A one-file batch containing the Hamburguer order. -/
def filesHam : List UploadFile :=
  [⟨"a.har", some (HarDoc.entries [entryHamburguer])⟩]

/-- Two uploaded files each holding the identical order transaction
(same URL, product, quantity and second-truncated instant; only the
originating file differs). -/
def filesTwoSame : List UploadFile :=
  [⟨"a.har", some (HarDoc.entries [entryHamburguer])⟩,
   ⟨"b.har", some (HarDoc.entries [entryHamburguer])⟩]

/-- The consolidated dataset of the one-file Hamburguer batch. -/
def consHam : Consolidated :=
  (processAllFiles filesHam).getD ⟨[], [], [], 0, 0, 0, 0, []⟩

/-- The single consolidated row of the one-file Hamburguer batch. -/
def rowHam : LancRow :=
  { numero := 1, response := 200, produto := "Hamburguer", qtde := 2,
    dataS := some "2023-05-05", horaS := some "09:00:00", deletar := "",
    valorUnit := 25, valorTotal := 50, mesa := "Mesa01", arquivoOrigem := "a.har",
    request := urlHamburguer }

/-- An order timestamped 2018-01-15T12:00:00Z — inside the 2017-2018
America/Sao_Paulo daylight-saving window, where the zone is UTC-2. -/
def lanc2018 : Lancamento :=
  { request := "http://pos.example/inc/add.php?nomeprod=X&mesa=M&quant=1", response := 200,
    produto := "X", qtde := 1, horarioVal := TempoVal.dt (civilToMs 2018 1 15 12 0 0 0),
    valorUnit := 10, valorTotal := 10, mesa := "M", arquivoOrigem := "a.har",
    lancamentoId := none }

/-- An order URL with quantity 0 and a negative price. -/
def urlQuantZero : String :=
  "http://pos.example/inc/add.php?nomeprod=Lanche%20R%24%20-5%2C00&mesa=MesaZ&quant=0"

def entryQuantZero : HarEntry :=
  { url := urlQuantZero, method := "GET", status := 200, startedDateTime := "",
    headers := [], postData := "", responseBody := "" }

/-- The OrderEvent the quant=0 entry yields. -/
def lancQuantZero : Lancamento :=
  { request := urlQuantZero, response := 200, produto := "Lanche", qtde := 0,
    horarioVal := TempoVal.raw "", valorUnit := -5, valorTotal := 0, mesa := "MesaZ",
    arquivoOrigem := "a.har", lancamentoId := none }

/-- Two orders on two tables: "MesaB" (alphabetically second) has the
larger total. -/
def entryRankB : HarEntry :=
  { url := "http://pos.example/inc/add.php?nomeprod=Lanche%20R%24%2050%2C00&mesa=MesaB&quant=1",
    method := "GET", status := 200, startedDateTime := "2023-05-05T12:00:00Z", headers := [],
    postData := "", responseBody := "" }

def entryRankA : HarEntry :=
  { url := "http://pos.example/inc/add.php?nomeprod=Suco%20R%24%2010%2C00&mesa=MesaA&quant=1",
    method := "GET", status := 200, startedDateTime := "2023-05-05T12:05:00Z", headers := [],
    postData := "", responseBody := "" }

def filesRank : List UploadFile :=
  [⟨"c.har", some (HarDoc.entries [entryRankB, entryRankA])⟩]

/-! ## Helper lemmas -/

theorem splitFirstL_ne_nil {sep : List Char} {p : List Char × List Char} :
    splitFirstL sep [] ≠ some p := by
  simp [splitFirstL]

theorem splitOnFuel_succ (sep : List Char) (n : Nat) (s : List Char) :
    splitOnFuel sep (n + 1) s =
      match splitFirstL sep s with
      | none => [s]
      | some (b, a) => b :: splitOnFuel sep n a := rfl

theorem splitOnFuel_head_seg (n : Nat) (hn : 0 < n) (a : List Char) :
    (splitOnFuel "R$".data n a).getD 0 [] = segAfter a := by
  cases n with
  | zero => omega
  | succ m =>
    rw [splitOnFuel_succ]
    unfold segAfter
    cases h : splitFirstL "R$".data a with
    | none => rfl
    | some p => cases p with | mk x y => rfl

section Dedup

variable {α κ : Type} [DecidableEq κ] (key : α → κ)

theorem dedupByKey_sublist : ∀ (seen : List κ) (l : List α),
    List.Sublist (dedupByKey key seen l) l := by
  intro seen l
  induction l generalizing seen with
  | nil => simp [dedupByKey]
  | cons a rest ih =>
    by_cases h : key a ∈ seen
    · simp only [dedupByKey, if_pos h]
      exact List.Sublist.cons a (ih seen)
    · simp only [dedupByKey, if_neg h]
      exact List.Sublist.cons₂ a (ih (key a :: seen))

theorem dedupByKey_key_notmem : ∀ (seen : List κ) (l : List α) (b : α),
    b ∈ dedupByKey key seen l → key b ∉ seen := by
  intro seen l
  induction l generalizing seen with
  | nil => intro b h; simp [dedupByKey] at h
  | cons a rest ih =>
    intro b hb
    by_cases h : key a ∈ seen
    · simp only [dedupByKey, if_pos h] at hb
      exact ih seen b hb
    · simp only [dedupByKey, if_neg h] at hb
      cases hb with
      | head => exact h
      | tail _ hb' =>
        have := ih (key a :: seen) b hb'
        intro hc
        exact this (List.mem_cons_of_mem _ hc)

theorem dedupByKey_pairwise : ∀ (seen : List κ) (l : List α),
    (dedupByKey key seen l).Pairwise (fun a b => key a ≠ key b) := by
  intro seen l
  induction l generalizing seen with
  | nil => simp [dedupByKey]
  | cons a rest ih =>
    by_cases h : key a ∈ seen
    · simp only [dedupByKey, if_pos h]
      exact ih seen
    · simp only [dedupByKey, if_neg h]
      refine List.Pairwise.cons ?_ (ih (key a :: seen))
      intro b hb heq
      have := dedupByKey_key_notmem key (key a :: seen) rest b hb
      exact this (by rw [← heq]; exact List.mem_cons_self _ _)

theorem dedupByKey_covers : ∀ (seen : List κ) (l : List α) (a : α), a ∈ l →
    key a ∈ seen ∨ ∃ b ∈ dedupByKey key seen l, key b = key a := by
  intro seen l
  induction l generalizing seen with
  | nil => intro a h; simp at h
  | cons x rest ih =>
    intro a ha
    by_cases h : key x ∈ seen
    · simp only [dedupByKey, if_pos h]
      cases ha with
      | head => exact Or.inl h
      | tail _ ha' => exact ih seen a ha'
    · simp only [dedupByKey, if_neg h]
      cases ha with
      | head => exact Or.inr ⟨x, List.mem_cons_self _ _, rfl⟩
      | tail _ ha' =>
        cases ih (key x :: seen) a ha' with
        | inl hmem =>
          cases List.mem_cons.mp hmem with
          | inl heq => exact Or.inr ⟨x, List.mem_cons_self _ _, heq.symm⟩
          | inr hseen => exact Or.inl hseen
        | inr hex =>
          obtain ⟨b, hb, hkb⟩ := hex
          exact Or.inr ⟨b, List.mem_cons_of_mem _ hb, hkb⟩

theorem dedupByKey_first : ∀ (seen : List κ) (l : List α) (b : α),
    b ∈ dedupByKey key seen l →
    l.find? (fun x => decide (key x = key b)) = some b := by
  intro seen l
  induction l generalizing seen with
  | nil => intro b h; simp [dedupByKey] at h
  | cons a rest ih =>
    intro b hb
    by_cases h : key a ∈ seen
    · simp only [dedupByKey, if_pos h] at hb
      have hne : key a ≠ key b := by
        intro heq
        exact dedupByKey_key_notmem key seen rest b hb (heq ▸ h)
      rw [List.find?_cons_of_neg _ (by simp [hne])]
      exact ih seen b hb
    · simp only [dedupByKey, if_neg h] at hb
      cases hb with
      | head =>
        rw [List.find?_cons_of_pos _ (by simp)]
      | tail _ hb' =>
        have hnotin := dedupByKey_key_notmem key (key a :: seen) rest b hb'
        have hne : key a ≠ key b := fun heq => hnotin (heq ▸ List.mem_cons_self _ _)
        rw [List.find?_cons_of_neg _ (by simp [hne])]
        exact ih (key a :: seen) b hb'

theorem dedupByKey_idem : ∀ (seen : List κ) (l : List α),
    dedupByKey key seen (dedupByKey key seen l) = dedupByKey key seen l := by
  intro seen l
  induction l generalizing seen with
  | nil => simp [dedupByKey]
  | cons a rest ih =>
    by_cases h : key a ∈ seen
    · simp only [dedupByKey, if_pos h]
      exact ih seen
    · simp only [dedupByKey, if_neg h, dedupByKey]
      rw [ih (key a :: seen)]

end Dedup

theorem processAllRaw_cons (g : UploadFile) (rest : List UploadFile) :
    processAllRaw (g :: rest) =
      ((fileEvents g).1 ++ (processAllRaw rest).1,
       (fileEvents g).2.1 ++ (processAllRaw rest).2.1,
       (fileEvents g).2.2 ++ (processAllRaw rest).2.2) := rfl

/-- A document that is not well-formed JSON, or that parses but lacks
the top-level shape, contributes no events (directly or through the
caught exception). -/
theorem fileEvents_silent (f : UploadFile)
    (hf : f.content = some HarDoc.badJson ∨ f.content = some HarDoc.badShape) :
    fileEvents f = ([], [], []) := by
  cases hf with
  | inl h =>
    unfold fileEvents
    rw [h]
    by_cases he : endsWithHar f.filename = true
    · rw [if_pos he]
      rfl
    · rw [if_neg he]
  | inr h =>
    unfold fileEvents
    rw [h]
    by_cases he : endsWithHar f.filename = true
    · rw [if_pos he]
      rfl
    · rw [if_neg he]

/-- The deletion branch never yields an order event. -/
theorem tryDelete_ne_lanc (f : String) (e : HarEntry) (tp : TempoVal) (l : Lancamento) :
    tryDelete f e tp ≠ some (EventKind.lanc l) := by
  unfold tryDelete
  by_cases h1 : (containsSub "/inc/del_produtos.php" e.url && (lowerStr e.method == "post")) = true
  · rw [if_pos h1]
    cases h2 : matchDeleteId e.postData with
    | none =>
      intro h
      exact Option.noConfusion h
    | some d =>
      intro h
      injection h with hEv
      exact EventKind.noConfusion hEv
  · rw [if_neg h1]
    intro h
    exact Option.noConfusion h

/-! ## Claim theorems -/

/-- C1 (counterexample): `parse_nomeprod` does not implement a
split-on-the-first-occurrence rule.  On `"AR$1R$2"` the code's
`split("R$")[1]` is the segment `"1"` between the two markers, giving
`("A", 1)`, while the claim's "text after the first occurrence" is
`"1R$2"`, which fails the decimal parse and falls back to the raw input
with price 0. -/
theorem parse_nomeprod_first_split_cex :
    parse_nomeprod "AR$1R$2" = ("A", 1) ∧
    parseNomeprodFirstSplit "AR$1R$2" = ("AR$1R$2", 0) ∧
    parse_nomeprod "AR$1R$2" ≠ parseNomeprodFirstSplit "AR$1R$2" := by
  decide

/-- C1 (amended): for every matched transaction the captured product
field is percent-decoded; with the `R$` marker present, the trimmed
text before the FIRST occurrence is the product name and the segment
BETWEEN the first and second occurrence (all the remaining text when
the marker is unique), with dots removed, comma turned into a dot and
spaces removed, parsed as the decimal unit price (raw-input fallback
with price 0 when that parse fails); without the marker the whole
decoded trimmed string is the name and the price is 0.  The Hamburguer
scenario URL yields product "Hamburguer", unit price 25, quantity 2 and
line total 50. -/
theorem parse_nomeprod_amended_c1 :
    (∀ s, parse_nomeprod s = parseNomeprodAmendedSpec s) ∧
    processEntry "cap.har" entryHamburguer = some (EventKind.lanc lancHamburguer) := by
  constructor
  · intro s
    show (if containsSub "R$" (unquotePlus s) then
        priceResult s (trimS ⟨(splitOnStrL "R$".data (unquotePlus s).data).getD 0 []⟩)
          (normVal ⟨(splitOnStrL "R$".data (unquotePlus s).data).getD 1 []⟩)
      else (trimS (unquotePlus s), 0)) =
      (match splitFirstL "R$".data (unquotePlus s).data with
      | none => (trimS (unquotePlus s), 0)
      | some (b, a) => priceResult s (trimS ⟨b⟩) (normVal ⟨segAfter a⟩))
    cases h : splitFirstL "R$".data (unquotePlus s).data with
    | none =>
      have hc : ¬(containsSub "R$" (unquotePlus s) = true) := by
        unfold containsSub
        rw [h]
        decide
      rw [if_neg hc]
    | some p =>
      cases p with
      | mk b a =>
        have hc : containsSub "R$" (unquotePlus s) = true := by
          unfold containsSub
          rw [h]
          rfl
        have hlen : 0 < (unquotePlus s).data.length := by
          cases hd : (unquotePlus s).data with
          | nil => rw [hd] at h; exact absurd h splitFirstL_ne_nil
          | cons x xs => simp
        have hsp : splitOnStrL "R$".data (unquotePlus s).data =
            b :: splitOnFuel "R$".data (unquotePlus s).data.length a := by
          unfold splitOnStrL
          rw [splitOnFuel_succ, h]
        have h1 : (b :: splitOnFuel "R$".data (unquotePlus s).data.length a).getD 1 [] =
            segAfter a := splitOnFuel_head_seg _ hlen a
        rw [if_pos hc, hsp, h1]
        rfl
  · decide

/-- C1 (witness): the amended split rule instantiated on a concrete
encoded product field. -/
theorem parse_nomeprod_amended_c1_inst :
    parse_nomeprod "Suco%20R%24%209%2C90" = parseNomeprodAmendedSpec "Suco%20R%24%209%2C90" :=
  parse_nomeprod_amended_c1.1 "Suco%20R%24%209%2C90"

/-- C2: `drop_duplicates(subset=["mesa","produto","Qtde","request",
"horario_norm"], keep="first")` — the survivors form a sublist of the
input (stable order), no two survivors share the five-field key, every
input key is represented, and each survivor is the FIRST input row
carrying its key; a two-file batch with the identical order transaction
consolidates to exactly one OrderEvent. -/
theorem order_dedup_key_c2 :
    (∀ l : List LancNorm,
      List.Sublist (dedupByKey lancKey [] l) l ∧
      (dedupByKey lancKey [] l).Pairwise (fun a b => lancKey a ≠ lancKey b) ∧
      (∀ a ∈ l, ∃ b ∈ dedupByKey lancKey [] l, lancKey b = lancKey a) ∧
      (∀ b ∈ dedupByKey lancKey [] l,
        l.find? (fun x => decide (lancKey x = lancKey b)) = some b)) ∧
    (processAllFiles filesTwoSame).map (fun c => c.lancamentos.length) = some 1 := by
  constructor
  · intro l
    refine ⟨dedupByKey_sublist _ _ _, dedupByKey_pairwise _ _ _, ?_, ?_⟩
    · intro a ha
      cases dedupByKey_covers lancKey [] l a ha with
      | inl hmem => simp at hmem
      | inr hex => exact hex
    · intro b hb
      exact dedupByKey_first lancKey [] l b hb
  · decide

/-- C2 (witness): in the duplicated two-row list the surviving row is
the first occurrence. -/
theorem order_dedup_key_c2_inst :
    List.find?
      (fun x => decide (lancKey x = lancKey (normalizeLanc lancHamburguer)))
      [normalizeLanc lancHamburguer, normalizeLanc lancHamburguer] =
      some (normalizeLanc lancHamburguer) :=
  (order_dedup_key_c2.1 [normalizeLanc lancHamburguer, normalizeLanc lancHamburguer]).2.2.2
    (normalizeLanc lancHamburguer) (by decide)

/-- C3 (code bug): the ranking table is sorted descending by summed
total, but `Posição` is `index + 1` computed from the index labels that
survive `sort_values`, i.e. the position of each table in the
alphabetical `groupby` key order, not in the sorted order.  With MesaB
(total 50) above MesaA (total 10), the top row carries position 2 and
the bottom row position 1, violating "the row with the largest summed
total carries position 1". -/
theorem ranking_posicao_c3 :
    (processAllFiles filesRank).map Consolidated.ranking =
      some [⟨2, "MesaB", 50⟩, ⟨1, "MesaA", 10⟩] := by decide

/-- C5 (counterexample): the code converts with
`tz_convert('America/Sao_Paulo')`, not with a fixed UTC-3 offset: at
2018-01-15T12:00:00Z (inside the 2017-2018 daylight-saving window) the
zone is UTC-2, so the code renders 10:00:00 where the claim's fixed
UTC-3 conversion renders 09:00:00. -/
theorem timezone_dst_cex_c5 :
    (normalizeLanc lanc2018).horaS = some "10:00:00" ∧
    (normalizeLanc lanc2018).dataS = some "2018-01-15" ∧
    (normalizeLancFixed3 lanc2018).horaS = some "09:00:00" ∧
    normalizeLanc lanc2018 ≠ normalizeLancFixed3 lanc2018 := by decide

/-- C6 (counterexample): a document that parses as JSON but lacks the
`log.entries` shape does NOT make the extractor return three empty
lists — the `log`/`entries` access raises outside the local `try`, and
`process_har_file` propagates the exception (the batch driver catches
it). -/
theorem bad_shape_cex_c6 :
    processHarFile HarDoc.badShape "a.har" = Except.error () ∧
    processHarFile HarDoc.badShape "a.har" ≠ Except.ok ([], [], []) :=
  ⟨rfl, fun h => Except.noConfusion h⟩

/-- C8 (counterexample): the order pattern accepts `quant=0` and
`parse_nomeprod` accepts a negative price text, so an extracted
OrderEvent can have quantity 0 (not positive) and unit price -5 (not
≥ 0). -/
theorem order_invariant_cex_c8 :
    processEntry "a.har" entryQuantZero = some (EventKind.lanc lancQuantZero) ∧
    ¬(0 < lancQuantZero.qtde) ∧ ¬((0 : ℚ) ≤ lancQuantZero.valorUnit) := by decide

/-- C9: the Consolidator's deduplication is idempotent — applied to an
already-deduplicated collection it removes nothing. -/
theorem dedup_idem_c9 : ∀ l : List LancNorm,
    dedupByKey lancKey [] (dedupByKey lancKey [] l) = dedupByKey lancKey [] l :=
  fun l => dedupByKey_idem lancKey [] l

/-- C9 (witness): idempotence on a concrete duplicated list. -/
theorem dedup_idem_c9_inst :
    dedupByKey lancKey []
        (dedupByKey lancKey [] [normalizeLanc lancHamburguer, normalizeLanc lancHamburguer]) =
      dedupByKey lancKey [] [normalizeLanc lancHamburguer, normalizeLanc lancHamburguer] :=
  dedup_idem_c9 [normalizeLanc lancHamburguer, normalizeLanc lancHamburguer]

/-- C7: `process_all_files` returns the "no data" outcome (`None`)
exactly when the whole batch yields zero orders, zero registrations and
zero deletions. -/
theorem empty_batch_iff_none_c7 : ∀ files : List UploadFile,
    processAllFiles files = none ↔
      ((processAllRaw files).1 = [] ∧ (processAllRaw files).2.1 = [] ∧
        (processAllRaw files).2.2 = []) := by
  intro files
  unfold processAllFiles
  by_cases h : (processAllRaw files).1 = [] ∧ (processAllRaw files).2.1 = [] ∧
      (processAllRaw files).2.2 = []
  · simp [h]
  · simp [h]

/-- C7 (witness): the empty batch signals "no data". -/
theorem empty_batch_iff_none_c7_inst : processAllFiles [] = none :=
  (empty_batch_iff_none_c7 []).mpr (by decide)

/-- C4: the commission wired into the pipeline is the flat 6% of the
total value of src/app.py line 220 and the fee is 4% of the total value
with no offset (line 221); the second commission variant reported by
the spec from the revision history, "percentage + fixed offset", is
kept as the distinct named formula `comissaoComOffset` (modelled from
the spec, it is not in src/) and yields 200 at total 1000, rate 6%,
offset 140. -/
theorem commission_fee_formulas_c4 :
    (∀ files c, processAllFiles files = some c →
      c.comissao = comissaoFlat c.totalValor ∧ c.taxa = taxaPct c.totalValor) ∧
    (∀ total : ℚ, comissaoFlat total = total * (6 / 100)) ∧
    (∀ total : ℚ, taxaPct total = total * (4 / 100)) ∧
    comissaoComOffset (6 / 100) 140 1000 = 200 ∧
    comissaoFlat 1000 = 60 := by
  refine ⟨?_, ?_, ?_, ?_, ?_⟩
  · intro files c hc
    unfold processAllFiles at hc
    by_cases h : (processAllRaw files).1 = [] ∧ (processAllRaw files).2.1 = [] ∧
        (processAllRaw files).2.2 = []
    · rw [if_pos h] at hc
      exact Option.noConfusion hc
    · rw [if_neg h] at hc
      injection hc with hrec
      rw [← hrec]
      exact ⟨rfl, rfl⟩
  · intro total
    unfold comissaoFlat
    norm_num
  · intro total
    unfold taxaPct
    norm_num
  · unfold comissaoComOffset
    norm_num
  · unfold comissaoFlat
    norm_num

/-- C4 (witness): the pipeline formulas instantiated on the concrete
one-file batch. -/
theorem commission_fee_formulas_c4_inst :
    consHam.comissao = comissaoFlat consHam.totalValor ∧
    consHam.taxa = taxaPct consHam.totalValor :=
  commission_fee_formulas_c4.1 filesHam consHam (by decide)

/-- C5 (amended): order timestamps are converted with the
America/Sao_Paulo civil timezone, which equals fixed UTC-3 for every
instant from 2019-11-03 on (daylight saving abolished); instants inside
a historical daylight-saving window get UTC-2 instead.  The conversion
produces the `YYYY-MM-DD` and `HH:MM:SS` display fields and the
timezone-naive second-truncated instant that is the `horario_norm`
deduplication key component; an unparseable timestamp propagates as
empty (missing) date/time fields and a missing key component. -/
theorem timezone_normalization_amended_c5 :
    (∀ t : Int, spFixedFrom ≤ t → ∀ l : Lancamento, l.horarioVal = TempoVal.dt t →
      normalizeLanc l = normalizeLancFixed3 l) ∧
    (∀ l : Lancamento, pdToDatetime l.horarioVal = none →
      normalizeLanc l = ⟨l, none, none, none⟩) ∧
    (∀ (l : Lancamento) (t : Int), pdToDatetime l.horarioVal = some t →
      (normalizeLanc l).dataS = some (dataStr (localMs t)) ∧
      (normalizeLanc l).horaS = some (horaStr (localMs t)) ∧
      (normalizeLanc l).horarioNorm = some (floorSec (localMs t))) := by
  refine ⟨?_, ?_, ?_⟩
  · intro t ht l hl
    have hend : dst1718End ≤ spFixedFrom := by decide
    have hno : ¬(dst1718Start ≤ t ∧ t < dst1718End) := by omega
    have hoff : spOffsetHours t = -3 := by
      unfold spOffsetHours
      rw [if_neg hno]
    have hloc : localMs t = t - 3 * 3600000 := by
      unfold localMs
      rw [hoff]
      ring
    unfold normalizeLanc normalizeLancFixed3
    rw [hl]
    show (⟨l, some (dataStr (localMs t)), some (horaStr (localMs t)),
        some (floorSec (localMs t))⟩ : LancNorm) =
      ⟨l, some (dataStr (t - 3 * 3600000)), some (horaStr (t - 3 * 3600000)),
        some (floorSec (t - 3 * 3600000))⟩
    rw [hloc]
  · intro l h
    unfold normalizeLanc
    rw [h]
  · intro l t h
    unfold normalizeLanc
    rw [h]
    exact ⟨rfl, rfl, rfl⟩

/-- C5 (witness): on the post-2019 Hamburguer instant the zone
conversion coincides with fixed UTC-3. -/
theorem timezone_normalization_c5_inst :
    normalizeLanc lancHamburguer = normalizeLancFixed3 lancHamburguer :=
  timezone_normalization_amended_c5.1 (civilToMs 2023 5 5 12 0 0 0) (by decide)
    lancHamburguer rfl

/-- C6 (amended): a document that fails to parse as JSON makes the
extractor return three empty event lists; a document that parses but
lacks the `log.entries` shape makes the extractor raise, and the batch
driver catches the exception and skips the file.  In both cases the
document contributes no events and the rest of the batch is processed
unchanged. -/
theorem doc_errors_amended_c6 :
    processHarFile HarDoc.badJson "f.har" = Except.ok ([], [], []) ∧
    processHarFile HarDoc.badShape "f.har" = Except.error () ∧
    (∀ f : UploadFile,
      (f.content = some HarDoc.badJson ∨ f.content = some HarDoc.badShape) →
      ∀ pre post, processAllRaw (pre ++ f :: post) = processAllRaw (pre ++ post)) := by
  refine ⟨rfl, rfl, ?_⟩
  intro f hf pre post
  induction pre with
  | nil =>
    rw [List.nil_append, List.nil_append, processAllRaw_cons, fileEvents_silent f hf]
    rfl
  | cons g pre ih =>
    rw [List.cons_append, List.cons_append, processAllRaw_cons, processAllRaw_cons, ih]

/-- C6 (witness): a shape-less document in front of a good file leaves
the batch output unchanged. -/
theorem doc_errors_c6_inst :
    processAllRaw (⟨"x.har", some HarDoc.badShape⟩ :: filesHam) = processAllRaw filesHam :=
  doc_errors_amended_c6.2.2 ⟨"x.har", some HarDoc.badShape⟩ (Or.inr rfl) [] filesHam

/-- C8 (amended): every OrderEvent, as extracted and after
consolidation, carries a line total recomputed as quantity x unit
price; the quantity is a non-negative integer (the digits of `quant=`,
which may be 0) and the unit price is an exact decimal that may be
negative. -/
theorem line_total_recomputed_c8 :
    (∀ (f : String) (e : HarEntry) (l : Lancamento),
      processEntry f e = some (EventKind.lanc l) →
      l.valorTotal = (l.qtde : ℚ) * l.valorUnit) ∧
    (∀ (files : List UploadFile) (c : Consolidated) (r : LancRow),
      processAllFiles files = some c → r ∈ c.lancamentos →
      r.valorTotal = (r.qtde : ℚ) * r.valorUnit) := by
  constructor
  · intro f e l h
    unfold processEntry at h
    cases hm : matchOrderUrl e.url with
    | some r =>
      obtain ⟨pr, m, q⟩ := r
      rw [hm] at h
      injection h with hEv
      injection hEv with hrec
      rw [← hrec]
    | none =>
      rw [hm] at h
      cases hc : matchCadastro e.url with
      | some mr =>
        rw [hc] at h
        replace h : (if e.status = 200 then
            some (EventKind.cad
              { mesa := trimS (unquotePlus mr),
                horarioCad := parseEntryTempo e.startedDateTime,
                request := e.url, response := e.status, arquivoOrigem := f })
          else tryDelete f e (parseEntryTempo e.startedDateTime)) =
            some (EventKind.lanc l) := h
        by_cases hs : e.status = 200
        · rw [if_pos hs] at h
          injection h with hEv
          exact EventKind.noConfusion hEv
        · rw [if_neg hs] at h
          exact absurd h (tryDelete_ne_lanc f e _ l)
      | none =>
        rw [hc] at h
        exact absurd h (tryDelete_ne_lanc f e _ l)
  · intro files c r hc hr
    unfold processAllFiles at hc
    by_cases h : (processAllRaw files).1 = [] ∧ (processAllRaw files).2.1 = [] ∧
        (processAllRaw files).2.2 = []
    · rw [if_pos h] at hc
      exact Option.noConfusion hc
    · rw [if_neg h] at hc
      injection hc with hrec
      rw [← hrec] at hr
      unfold consolidateLancs at hr
      obtain ⟨p, hp, hrp⟩ := List.mem_map.mp hr
      rw [← hrp]
      rfl

/-- C8 (witness): the recomputation identity on the concrete
consolidated Hamburguer row. -/
theorem line_total_recomputed_c8_inst :
    rowHam.valorTotal = (rowHam.qtde : ℚ) * rowHam.valorUnit :=
  line_total_recomputed_c8.2 filesHam consHam rowHam (by decide) (by decide)

/-- C10: the product-field parser is total (a Lean function returning a
pair for every input, mirroring that no exception escapes the
`try`/`except`); percent-decoding never fails, and whenever the decimal
parse of the price text fails the parser falls back to the original raw
(still percent-encoded) input with unit price 0.  Moreover every record
whose URL matches the order pattern is emitted as an OrderEvent built
from `parse_nomeprod`'s result, whatever that result is — a malformed
price portion never causes the record to be skipped. -/
theorem parse_fallback_total_c10 :
    (∀ s : String, containsSub "R$" (unquotePlus s) = true →
      pyFloat (normVal ⟨(splitOnStrL "R$".data (unquotePlus s).data).getD 1 []⟩) = none →
      parse_nomeprod s = (s, 0)) ∧
    (∀ (f : String) (e : HarEntry) (pr m : String) (q : List Char),
      matchOrderUrl e.url = some (pr, m, q) →
      processEntry f e = some (EventKind.lanc
        { request := e.url, response := e.status, produto := (parse_nomeprod pr).1,
          qtde := digitsVal q, horarioVal := parseEntryTempo e.startedDateTime,
          valorUnit := (parse_nomeprod pr).2,
          valorTotal := (digitsVal q : ℚ) * (parse_nomeprod pr).2,
          mesa := m, arquivoOrigem := f, lancamentoId := lancIdOf e.responseBody })) := by
  constructor
  · intro s hcon hfail
    show (if containsSub "R$" (unquotePlus s) then
        priceResult s (trimS ⟨(splitOnStrL "R$".data (unquotePlus s).data).getD 0 []⟩)
          (normVal ⟨(splitOnStrL "R$".data (unquotePlus s).data).getD 1 []⟩)
      else (trimS (unquotePlus s), 0)) = (s, 0)
    rw [if_pos hcon]
    unfold priceResult
    rw [hfail]
  · intro f e pr m q hm
    unfold processEntry
    rw [hm]

/-- C10 (witness): a malformed price falls back to the raw input with
price 0. -/
theorem parse_fallback_total_c10_inst :
    parse_nomeprod "A R$ x" = ("A R$ x", 0) :=
  parse_fallback_total_c10.1 "A R$ x" (by decide) (by decide)

end HarReport
